import Mathlib

/-
Verification of the hinted-handoff `Service` (services/hh/service.go).

The Go code under verification is the handoff `Service`: its constructor
`NewService`, the lifecycle operations `Open`/`Close`, the foreground entry
point `WriteShard`, one tick of the background purge loop
`purgeInactiveProcessors`, and the path helper `pathforNode`.

The `NodeProcessor` type the service manages is declared but not implemented
in the sources at hand; per the specification it exposes `Open`, `Close`,
`WriteShard`, `LastModified` and `Purge`.  It is therefore modelled from the
spec as a record carrying, for each of those operations, the outcome the
processor would produce (an error oracle), together with the small amount of
state (`closed`, `lastModified`) the spec ascribes to it.  The `Service`
logic below is a direct transcription of the Go function bodies; the Go map
`processors` becomes an association list plus a `procsInit` flag recording
whether the map was ever initialised (the Go constructor leaves it nil, and
assigning to a nil Go map faults).
-/

set_option autoImplicit false
set_option linter.unusedVariables false

namespace HH

/-- Go `error` values, modelled by their message string (`nil` = `none`). -/
abbrev GoErr := String

/-- Points are opaque payloads to the service; only their count matters. -/
abbrev Point := Nat

/-- Result of running a Go function that may return normally, return an
error, or fault at runtime (nil-map assignment / nil-pointer dereference).
Each constructor carries the observable state when the call ends; for a
`crash` this is the state of surviving globals (the statistics map) at the
moment of the fault. -/
inductive Outcome (α : Type) where
  | ok : α → Outcome α
  | error : GoErr → α → Outcome α
  | crash : String → α → Outcome α
deriving Repr, DecidableEq

/-- The state carried by an outcome. -/
def Outcome.state {α : Type} : Outcome α → α
  | .ok a => a
  | .error _ a => a
  | .crash _ a => a

/-- `ErrHintedHandoffDisabled` from service.go line 20. -/
def ErrHintedHandoffDisabled : GoErr := "hinted handoff disabled"

/-- Runtime fault message for a method call that dereferences a nil
`*NodeProcessor` receiver. -/
def nilPtrOpenFault : String :=
  "runtime error: invalid memory address or nil pointer dereference"

/-- Runtime fault message for assignment to an entry of a nil Go map. -/
def nilMapFault : String := "assignment to entry in nil map"

/-- Modelled from the spec: a closed NodeProcessor rejects writes with a
Closed error. -/
def ErrProcessorClosed : GoErr := "processor is closed"

/-! ### Decimal rendering and parsing of node IDs -/

/-- The ASCII digit character for a single decimal digit. -/
def digitChar (d : Nat) : Char := Char.ofNat (48 + d)

/-- Little-endian decimal digits of `n`, with explicit fuel (the fuel `n`
itself always suffices). -/
def decimalDigitsAux : Nat → Nat → List Nat
  | 0, _ => []
  | fuel + 1, n => if n = 0 then [] else n % 10 :: decimalDigitsAux fuel (n / 10)

/-- The decimal rendering of `n`, as produced by Go's `fmt.Sprintf("%d", n)`:
plain decimal digits, most significant first, no padding. -/
def decimalRepr (n : Nat) : String :=
  if n = 0 then "0"
  else ⟨((decimalDigitsAux n n).reverse).map digitChar⟩

/-- Modelled from the spec: the zero-padded decimal rendering of `n` to a
fixed `width` (left-padded with `'0'`), as the spec's on-disk layout section
describes for `nodeID`/`segmentID` path components. -/
def zeroPadded (width n : Nat) : String :=
  ⟨List.replicate (width - (decimalRepr n).data.length) '0' ++ (decimalRepr n).data⟩

/-- Go `strconv.ParseUint(s, 10, 64)`, as used by `Service.Open`: a nonempty
string of ASCII decimal digits whose value fits in 64 bits; anything else is
a parse error (`none`). -/
def parseUint64 (s : String) : Option Nat :=
  if s.data = [] then none
  else if s.data.all Char.isDigit then
    if s.data.foldl (fun acc c => acc * 10 + (c.toNat - 48)) 0 < 2 ^ 64 then
      some (s.data.foldl (fun acc c => acc * 10 + (c.toNat - 48)) 0)
    else none
  else none

/-! ### The NodeProcessor model -/

/-- Modelled from the spec: the behaviour of the `NodeProcessor` that
`NewNodeProcessor(nodeID, path, w, m)` would construct for a given node —
the outcome of each of its operations (`none` = success) and its last
modification time.  The processor implementation is external to the code
under verification; the service treats it through exactly this interface. -/
structure ProcSpec where
  openErr : Option GoErr
  closeErr : Option GoErr
  lmErr : Option GoErr
  lastModified : Int
  purgeErr : Option GoErr
  writeErr : Option GoErr
deriving Repr, DecidableEq

/-- Environment: for each node ID, the behaviour of the processor that would
be constructed for it. -/
abbrev Env := Nat → ProcSpec

/-- A constructed `NodeProcessor`: node ID, on-disk directory, closed flag,
and its behaviour oracle (modelled from the spec, see `ProcSpec`). -/
structure NodeProcessor where
  nodeID : Nat
  dir : String
  closed : Bool
  openErr : Option GoErr
  closeErr : Option GoErr
  lmErr : Option GoErr
  lastModified : Int
  purgeErr : Option GoErr
  writeErr : Option GoErr
deriving Repr, DecidableEq

/-- `NewNodeProcessor(nodeID, path, w, m)`: constructs a processor for
`nodeID` rooted at `dir`.  The shard writer and metastore collaborators are
absorbed into the behaviour oracle `spec`. -/
def NewNodeProcessor (nodeID : Nat) (dir : String) (spec : ProcSpec) : NodeProcessor :=
  { nodeID := nodeID, dir := dir, closed := false,
    openErr := spec.openErr, closeErr := spec.closeErr, lmErr := spec.lmErr,
    lastModified := spec.lastModified, purgeErr := spec.purgeErr,
    writeErr := spec.writeErr }

/-- Modelled from the spec: `NodeProcessor.Close` stops the replay task and
closes the queue; it is idempotent (a second close succeeds). -/
def NodeProcessor.Close (p : NodeProcessor) : Option GoErr × NodeProcessor :=
  if p.closed then (none, p)
  else
    match p.closeErr with
    | some e => (some e, p)
    | none => (none, { p with closed := true })

/-- Modelled from the spec: `NodeProcessor.LastModified` reports the most
recent activity time, or an error. -/
def NodeProcessor.LastModified (p : NodeProcessor) : Except GoErr Int :=
  match p.lmErr with
  | some e => .error e
  | none => .ok p.lastModified

/-- Modelled from the spec: `NodeProcessor.WriteShard` appends the encoded
write to the queue, failing with Closed on a closed processor, and updates
`lastModified` on success. -/
def NodeProcessor.WriteShard (p : NodeProcessor) (shardID : Nat) (points : List Point)
    (now : Int) : Option GoErr × NodeProcessor :=
  if p.closed then (some ErrProcessorClosed, p)
  else
    match p.writeErr with
    | some e => (some e, p)
    | none => (none, { p with lastModified := now })

/-! ### The Service model -/

/-- The configuration fields of `Config` that `Service` reads. -/
structure Config where
  Enabled : Bool
  Dir : String
  MaxAge : Int
  PurgeInterval : Int
deriving Repr, DecidableEq

/-- The two statistics counters `WriteShard` touches. -/
structure Stats where
  writeShardReq : Int
  writeShardReqPoints : Int
deriving Repr, DecidableEq

/-- The `Service` struct.  `procsInit` records whether the `processors` Go
map was ever initialised: `NewService` leaves it nil, and assignment to a
nil map faults.  `closingOpen` models `closing != nil`; `purgeRunning`
models whether the purge goroutine is running (tracked by `wg`). -/
structure Service where
  cfg : Config
  procsInit : Bool
  processors : List (Nat × NodeProcessor)
  closingOpen : Bool
  purgeRunning : Bool
  statMap : Stats
deriving Repr, DecidableEq

/-- The filesystem state `Service.Open` interacts with: whether `MkdirAll`
on the root fails, whether the root exists, and the result of `ReadDir`
(an error, or the list of child names). -/
structure FS where
  mkdirErr : Option GoErr
  dirExists : Bool
  childrenErr : Option GoErr
  childNames : List String
deriving Repr, DecidableEq

/-- Result of `metaStore.Node(id)`: a node info (member), nil-with-no-error
(departed), or an error (membership unknown). -/
inductive NodeResult where
  | info
  | notFound
  | nodeErr (e : GoErr)
deriving Repr, DecidableEq

/-- `NewService(c, w, m)`: builds the service with zeroed statistics.  The Go
constructor does not initialise the `processors` map, so `procsInit` is
`false`; `closing` is nil and no goroutine is running. -/
def NewService (cfg : Config) : Service :=
  { cfg := cfg, procsInit := false, processors := [], closingOpen := false,
    purgeRunning := false,
    statMap := { writeShardReq := 0, writeShardReqPoints := 0 } }

/-- `Service.pathforNode`: `filepath.Join(s.cfg.Dir, fmt.Sprintf("%d",
nodeID))`, for a clean root directory. -/
def Service.pathforNode (s : Service) (nodeID : Nat) : String :=
  s.cfg.Dir ++ "/" ++ decimalRepr nodeID

/-- First-match lookup in the processor association list (Go map read; a
read from a nil map simply finds nothing). -/
def lookupProc : List (Nat × NodeProcessor) → Nat → Option NodeProcessor
  | [], _ => none
  | (k, v) :: rest, id => if k = id then some v else lookupProc rest id

/-- Replace the entry for `id` (Go map write to an existing key). -/
def updateProc (l : List (Nat × NodeProcessor)) (id : Nat) (p : NodeProcessor) :
    List (Nat × NodeProcessor) :=
  l.map (fun kv => if kv.1 = id then (kv.1, p) else kv)

/-- The directory-scan loop of `Service.Open` (lines 88–100): for each child
name that parses as a uint64, construct and open a processor and store it in
the map; a name that does not parse is skipped.  The store
`s.processors[nodeID] = n` faults when the map was never initialised. -/
def openLoop (env : Env) (dir : String) : Service → List String → Outcome Service
  | st, [] => .ok st
  | st, name :: rest =>
    match parseUint64 name with
    | none => openLoop env dir st rest
    | some nodeID =>
      let n := NewNodeProcessor nodeID (dir ++ "/" ++ decimalRepr nodeID) (env nodeID)
      match n.openErr with
      | some e => .error e st
      | none =>
        if st.procsInit then
          openLoop env dir { st with processors := st.processors ++ [(nodeID, n)] } rest
        else .crash nilMapFault st

/-- `Service.Open` (lines 66–106): no-op success when disabled; otherwise
make the closing channel, `MkdirAll` the root, `ReadDir` it, run the
directory-scan loop, and finally start the purge goroutine. -/
def Service.Open (s : Service) (fs : FS) (env : Env) : Outcome (Service × FS) :=
  if !s.cfg.Enabled then .ok (s, fs)
  else
    let s1 := { s with closingOpen := true }
    match fs.mkdirErr with
    | some e => .error ("mkdir all: " ++ e) (s1, fs)
    | none =>
      let fs1 := { fs with dirExists := true }
      match fs1.childrenErr with
      | some e => .error e (s1, fs1)
      | none =>
        match openLoop env s.cfg.Dir s1 fs1.childNames with
        | .ok s2 => .ok ({ s2 with purgeRunning := true }, fs1)
        | .error e s2 => .error e (s2, fs1)
        | .crash m s2 => .crash m (s2, fs1)

/-- The processor-closing loop of `Service.Close` (lines 112–116): close
processors in turn, returning at the first error (the remaining processors
are not closed). -/
def closeLoop : List (Nat × NodeProcessor) → Option GoErr × List (Nat × NodeProcessor)
  | [] => (none, [])
  | (k, p) :: rest =>
    match p.Close with
    | (some e, p') => (some e, (k, p') :: rest)
    | (none, p') =>
      match closeLoop rest with
      | (r, rest') => (r, (k, p') :: rest')

/-- `Service.Close` (lines 108–125): close every processor, returning the
first close error immediately; on success close the closing channel (if
non-nil), wait for the purge goroutine, and reset `closing`. -/
def Service.Close (s : Service) : Outcome Service :=
  match closeLoop s.processors with
  | (some e, procs) => .error e { s with processors := procs }
  | (none, procs) =>
    .ok { s with processors := procs, closingOpen := false,
                 purgeRunning := if s.closingOpen then false else s.purgeRunning }

/-- `Service.WriteShard` (lines 133–169): reject when disabled; bump the two
statistics counters; look the processor up.  When it is present, delegate.
When it is absent, the code re-checks under the write lock (still absent in
a single-threaded run), constructs `p := NewNodeProcessor(...)` — and then
calls `processor.Open()` on the nil `processor` returned by the failed
lookup, which dereferences a nil `*NodeProcessor` receiver and faults.
(Had it not faulted, the subsequent `s.processors[ownerID] = p` would fault
on the nil map.) -/
def Service.WriteShard (s : Service) (shardID ownerID : Nat) (points : List Point)
    (now : Int) : Outcome Service :=
  if !s.cfg.Enabled then .error ErrHintedHandoffDisabled s
  else
    let s1 := { s with statMap :=
      { writeShardReq := s.statMap.writeShardReq + 1,
        writeShardReqPoints := s.statMap.writeShardReqPoints + (points.length : Int) } }
    match lookupProc s1.processors ownerID with
    | some processor =>
      match processor.WriteShard shardID points now with
      | (some e, p') => .error e { s1 with processors := updateProc s1.processors ownerID p' }
      | (none, p') => .ok { s1 with processors := updateProc s1.processors ownerID p' }
    | none => .crash nilPtrOpenFault s1

/-- One processor's treatment in the loop body of `purgeInactiveProcessors`
(lines 186–217): `some v'` keeps (a possibly close-updated) `v'` in the map,
`none` deletes the entry.  Each error path logs and `continue`s. -/
def purgeStep (node : Nat → NodeResult) (now maxAge : Int) (k : Nat)
    (v : NodeProcessor) : Option NodeProcessor :=
  match v.LastModified with
  | .error _ => some v
  | .ok lm =>
    match node k with
    | .nodeErr _ => some v
    | .info => some v
    | .notFound =>
      if lm < now - maxAge then
        match v.Close with
        | (some _, v') => some v'
        | (none, v') =>
          match v'.purgeErr with
          | some _ => some v'
          | none => none
      else some v

/-- The per-entry function used by one purge tick on the `(key, processor)`
pairs of the map. -/
def purgeEntry (node : Nat → NodeResult) (now maxAge : Int)
    (kv : Nat × NodeProcessor) : Option (Nat × NodeProcessor) :=
  (purgeStep node now maxAge kv.1 kv.2).map (fun v' => (kv.1, v'))

/-- One tick of `purgeInactiveProcessors` (lines 182–218): under the
exclusive lock, visit every processor and delete exactly those for which
`purgeStep` decides removal. -/
def Service.purgeCycle (s : Service) (node : Nat → NodeResult) (now : Int) : Service :=
  { s with processors := s.processors.filterMap (purgeEntry node now s.cfg.MaxAge) }

/-! ### Concrete fixtures for witnesses and counterexamples -/

/-- An enabled configuration. -/
def cfgOn : Config :=
  { Enabled := true, Dir := "data", MaxAge := 3600, PurgeInterval := 60 }

/-- A disabled configuration. -/
def cfgOff : Config :=
  { Enabled := false, Dir := "data", MaxAge := 3600, PurgeInterval := 60 }

/-- A processor behaviour whose every operation succeeds. -/
def benignSpec : ProcSpec :=
  { openErr := none, closeErr := none, lmErr := none, lastModified := 0,
    purgeErr := none, writeErr := none }

/-- An environment in which every node's processor behaves benignly. -/
def benignEnv : Env := fun _ => benignSpec

/-- A filesystem whose root directory exists and is empty. -/
def fsEmpty : FS :=
  { mkdirErr := none, dirExists := true, childrenErr := none, childNames := [] }

/-- A filesystem whose root directory contains the single child `5`. -/
def fsOne : FS := { fsEmpty with childNames := ["5"] }

/-- An open processor for node 1 whose `Close` fails. -/
def pBad : NodeProcessor :=
  { nodeID := 1, dir := "data/1", closed := false, openErr := none,
    closeErr := some "close failed: boom", lmErr := none, lastModified := 0,
    purgeErr := none, writeErr := none }

/-- An open processor for node 2 whose every operation succeeds. -/
def pGood : NodeProcessor :=
  { nodeID := 2, dir := "data/2", closed := false, openErr := none,
    closeErr := none, lmErr := none, lastModified := 0,
    purgeErr := none, writeErr := none }

/-- A running service holding processors 1 (close fails) and 2 (benign). -/
def svcTwo : Service :=
  { cfg := cfgOn, procsInit := true, processors := [(1, pBad), (2, pGood)],
    closingOpen := true, purgeRunning := true,
    statMap := { writeShardReq := 0, writeShardReqPoints := 0 } }

/-- A running service holding only the benign processor 2. -/
def svcGood : Service :=
  { cfg := cfgOn, procsInit := true, processors := [(2, pGood)],
    closingOpen := true, purgeRunning := true,
    statMap := { writeShardReq := 0, writeShardReqPoints := 0 } }

/-! ### Helper lemmas -/

/-- Re-closing an already-closed processor record leaves it unchanged. -/
theorem withClosed_self (p : NodeProcessor) (h : p.closed = true) :
    { p with closed := true } = p := by
  cases p
  simp_all

/-- A processor that is already closed, or closes cleanly, produces no close
error and ends up closed. -/
theorem Close_ok_of_clean (p : NodeProcessor)
    (h : p.closed = true ∨ p.closeErr = none) :
    p.Close = (none, { p with closed := true }) := by
  rcases h with hc | he
  · simp [NodeProcessor.Close, hc, withClosed_self p hc]
  · by_cases hc : p.closed = true
    · simp [NodeProcessor.Close, hc, withClosed_self p hc]
    · simp [NodeProcessor.Close, hc, he]

/-- When every processor in the list is closed or closes cleanly, the close
loop succeeds and closes them all. -/
theorem closeLoop_all_ok (l : List (Nat × NodeProcessor))
    (h : ∀ kv ∈ l, kv.2.closed = true ∨ kv.2.closeErr = none) :
    closeLoop l = (none, l.map (fun kv => (kv.1, { kv.2 with closed := true }))) := by
  induction l with
  | nil => rfl
  | cons kv rest ih =>
    obtain ⟨k, p⟩ := kv
    have hrest : ∀ kv ∈ rest, kv.2.closed = true ∨ kv.2.closeErr = none :=
      fun kv hkv => h kv (List.mem_cons_of_mem _ hkv)
    have hp : p.closed = true ∨ p.closeErr = none := h (k, p) (List.mem_cons_self _ _)
    simp [closeLoop, Close_ok_of_clean p hp, ih hrest]

/-- On a list of already-closed processors the close loop is the identity. -/
theorem closeLoop_closed_fixpoint (l : List (Nat × NodeProcessor))
    (h : ∀ kv ∈ l, kv.2.closed = true) :
    closeLoop l = (none, l) := by
  induction l with
  | nil => rfl
  | cons kv rest ih =>
    obtain ⟨k, p⟩ := kv
    have hc : p.closed = true := h (k, p) (List.mem_cons_self _ _)
    have hcl : p.Close = (none, p) := by
      rw [Close_ok_of_clean p (Or.inl hc), withClosed_self p hc]
    simp [closeLoop, hcl, ih fun kv hkv => h kv (List.mem_cons_of_mem _ hkv)]

/-- When a prefix closes cleanly and the next processor's close fails, the
close loop returns that error, with the prefix closed and the failing
processor and everything after it untouched. -/
theorem closeLoop_prefix_error (xs ys : List (Nat × NodeProcessor)) (k : Nat)
    (p : NodeProcessor) (e : GoErr)
    (hxs : ∀ kv ∈ xs, kv.2.closed = true ∨ kv.2.closeErr = none)
    (hc : p.closed = false) (he : p.closeErr = some e) :
    closeLoop (xs ++ (k, p) :: ys)
      = (some e, xs.map (fun kv => (kv.1, { kv.2 with closed := true })) ++ (k, p) :: ys) := by
  induction xs with
  | nil => simp [closeLoop, NodeProcessor.Close, hc, he]
  | cons kv rest ih =>
    obtain ⟨k0, p0⟩ := kv
    have hrest : ∀ kv ∈ rest, kv.2.closed = true ∨ kv.2.closeErr = none :=
      fun kv hkv => hxs kv (List.mem_cons_of_mem _ hkv)
    have hp0 : p0.closed = true ∨ p0.closeErr = none := hxs (k0, p0) (List.mem_cons_self _ _)
    simp [closeLoop, Close_ok_of_clean p0 hp0, ih hrest]

/-- `Service.Close` when the close loop succeeds. -/
theorem Close_of_closeLoop_none (s : Service) (procs : List (Nat × NodeProcessor))
    (h : closeLoop s.processors = (none, procs)) :
    s.Close = .ok
      { s with processors := procs, closingOpen := false,
               purgeRunning := if s.closingOpen then false else s.purgeRunning } := by
  simp [Service.Close, h]

/-- `Service.Close` when the close loop returns an error. -/
theorem Close_of_closeLoop_some (s : Service) (procs : List (Nat × NodeProcessor))
    (e : GoErr) (h : closeLoop s.processors = (some e, procs)) :
    s.Close = .error e { s with processors := procs } := by
  simp [Service.Close, h]

/-- The state `Service.Close` produces when every processor close succeeds:
all processors closed, closing channel reset, purge goroutine stopped. -/
def serviceClosed (s : Service) : Service :=
  { s with processors := s.processors.map (fun kv => (kv.1, { kv.2 with closed := true })),
           closingOpen := false,
           purgeRunning := if s.closingOpen then false else s.purgeRunning }

/-! ### Claim theorems -/

/-- C1: the claim says `writeShard` on an enabled service with no processor
for `ownerID` constructs a fresh processor, opens it, inserts it, and
delegates, succeeding whenever open and write succeed.  The code instead
calls `Open` on the nil `processor` returned by the failed lookup, so the
call faults at runtime (only the statistics updates survive): evaluated here
on an enabled service with an empty processor map. -/
theorem writeShard_nil_processor_open_crash :
    (NewService cfgOn).WriteShard 1 42 [0] 100
      = .crash nilPtrOpenFault
          { NewService cfgOn with
            statMap := { writeShardReq := 1, writeShardReqPoints := 1 } } := by
  decide

/-- C3: the claim says `open()` records a processor in the map for every
numeric child of the root directory.  `NewService` never initialises the
`processors` map, so the store `s.processors[nodeID] = n` for the first
numeric child faults on the nil map: evaluated here on a root directory
containing the single child `5` with a benignly-behaving processor. -/
theorem open_numeric_child_nil_map_crash :
    (NewService cfgOn).Open fsOne benignEnv
      = .crash nilMapFault
          ({ NewService cfgOn with closingOpen := true },
           { fsOne with dirExists := true }) := by
  decide

/-- C5: on a service whose configuration is disabled, `writeShard` fails
with the hinted-handoff-disabled error while `open()` and `close()` both
succeed (and change nothing). -/
theorem disabled_writeShard_open_close (cfg : Config) (fs : FS) (env : Env)
    (shardID ownerID : Nat) (points : List Point) (now : Int)
    (h : cfg.Enabled = false) :
    (NewService cfg).WriteShard shardID ownerID points now
        = .error ErrHintedHandoffDisabled (NewService cfg)
      ∧ (NewService cfg).Open fs env = .ok (NewService cfg, fs)
      ∧ (NewService cfg).Close = .ok (NewService cfg) := by
  refine ⟨?_, ?_, ?_⟩
  · simp [Service.WriteShard, NewService, h]
  · simp [Service.Open, NewService, h]
  · rfl

/-- C5 witness: the disabled behaviour at a concrete disabled service. -/
theorem disabled_writeShard_open_close_witness :
    (NewService cfgOff).WriteShard 1 2 [0] 5
        = .error ErrHintedHandoffDisabled (NewService cfgOff)
      ∧ (NewService cfgOff).Open fsEmpty benignEnv = .ok (NewService cfgOff, fsEmpty)
      ∧ (NewService cfgOff).Close = .ok (NewService cfgOff) :=
  disabled_writeShard_open_close cfgOff fsEmpty benignEnv 1 2 [0] 5 (by decide)

/-- C7: `open()` on an enabled service whose root directory is created (or
exists) and lists no children succeeds and leaves the processor map with no
entries. -/
theorem open_empty_root_no_processors (cfg : Config) (fs : FS) (env : Env)
    (h1 : cfg.Enabled = true) (h2 : fs.mkdirErr = none)
    (h3 : fs.childrenErr = none) (h4 : fs.childNames = []) :
    (NewService cfg).Open fs env
        = .ok ({ NewService cfg with closingOpen := true, purgeRunning := true },
               { fs with dirExists := true })
      ∧ ({ NewService cfg with closingOpen := true, purgeRunning := true } : Service).processors
          = [] := by
  constructor
  · simp [Service.Open, NewService, h1, h2, h3, h4, openLoop]
  · rfl

/-- C7 witness: opening at a concrete empty root directory. -/
theorem open_empty_root_no_processors_witness :
    (NewService cfgOn).Open fsEmpty benignEnv
        = .ok ({ NewService cfgOn with closingOpen := true, purgeRunning := true },
               { fsEmpty with dirExists := true })
      ∧ ({ NewService cfgOn with closingOpen := true, purgeRunning := true } : Service).processors
          = [] :=
  open_empty_root_no_processors cfgOn fsEmpty benignEnv (by decide) (by decide)
    (by decide) (by decide)

/-- C8: `open()` on a disabled service returns success and changes nothing:
the service state (processors, purge goroutine, closing channel, stats) and
the filesystem (no directory created) are returned exactly as given. -/
theorem open_disabled_is_noop (s : Service) (fs : FS) (env : Env)
    (h : s.cfg.Enabled = false) :
    s.Open fs env = .ok (s, fs) := by
  simp [Service.Open, h]

/-- C8 witness: the no-op open at a concrete disabled service. -/
theorem open_disabled_is_noop_witness :
    (NewService cfgOff).Open fsOne benignEnv = .ok (NewService cfgOff, fsOne) :=
  open_disabled_is_noop (NewService cfgOff) fsOne benignEnv (by decide)

/-- C10: `writeShard` on an enabled service increments `writeShardReq` by 1
and `writeShardReqPoints` by the number of points before the processor
lookup, so the counters are updated in the final state of every enabled
call, error or not; on a disabled service neither counter changes. -/
theorem writeShard_stats_incremented (s : Service) (shardID ownerID : Nat)
    (points : List Point) (now : Int) :
    (s.cfg.Enabled = true →
        ((s.WriteShard shardID ownerID points now).state).statMap
          = { writeShardReq := s.statMap.writeShardReq + 1,
              writeShardReqPoints := s.statMap.writeShardReqPoints + (points.length : Int) })
      ∧ (s.cfg.Enabled = false →
        ((s.WriteShard shardID ownerID points now).state).statMap = s.statMap) := by
  constructor
  · intro h
    simp only [Service.WriteShard, h, Bool.not_true, Bool.false_eq_true, if_false]
    split
    · split <;> rfl
    · rfl
  · intro h
    simp [Service.WriteShard, h, Outcome.state]

/-- C10 witness: the counters at a concrete enabled call (which faults after
the counters are bumped) and a concrete disabled call. -/
theorem writeShard_stats_incremented_witness :
    ((NewService cfgOn).WriteShard 1 42 [0, 0] 7).state.statMap
        = { writeShardReq := 1, writeShardReqPoints := 2 }
      ∧ ((NewService cfgOff).WriteShard 1 42 [0, 0] 7).state.statMap
        = (NewService cfgOff).statMap := by
  constructor
  · exact ((writeShard_stats_incremented (NewService cfgOn) 1 42 [0, 0] 7).1
      (by decide)).trans (by decide)
  · exact (writeShard_stats_incremented (NewService cfgOff) 1 42 [0, 0] 7).2 (by decide)

/-- C4 counterexample: the claim says `close()` collects per-processor close
errors without stopping at the first one and then signals the purge task.
On a service whose first processor fails to close, the code returns that
error immediately: the second (benign) processor is left unclosed and the
purge task is neither signalled nor awaited. -/
theorem close_short_circuits_counterexample :
    svcTwo.Close = .error "close failed: boom" svcTwo
      ∧ pGood.closed = false
      ∧ (2, pGood) ∈ svcTwo.processors
      ∧ svcTwo.purgeRunning = true := by
  decide

/-- C4 amended: `close()` closes processors in iteration order and returns
the first close error immediately, leaving the remaining processors
unclosed and the purge task unsignalled; when every processor close
succeeds it closes them all, signals the purge task, waits for it, and a
second `close()` is then a no-op that also succeeds. -/
theorem close_first_error_behavior (s : Service) (xs ys : List (Nat × NodeProcessor))
    (k : Nat) (p : NodeProcessor) (e : GoErr) :
    ((∀ kv ∈ s.processors, kv.2.closed = true ∨ kv.2.closeErr = none) →
        s.Close = .ok (serviceClosed s)
          ∧ (∀ kv ∈ (serviceClosed s).processors, kv.2.closed = true)
          ∧ (serviceClosed s).closingOpen = false
          ∧ (s.closingOpen = true → (serviceClosed s).purgeRunning = false)
          ∧ (serviceClosed s).Close = .ok (serviceClosed s))
      ∧ (s.processors = xs ++ (k, p) :: ys →
         (∀ kv ∈ xs, kv.2.closed = true ∨ kv.2.closeErr = none) →
         p.closed = false → p.closeErr = some e →
         s.Close = .error e
           { s with processors :=
               xs.map (fun kv => (kv.1, { kv.2 with closed := true })) ++ (k, p) :: ys }) := by
  constructor
  · intro h
    have hloop := closeLoop_all_ok s.processors h
    have hclosed : ∀ kv ∈ (serviceClosed s).processors, kv.2.closed = true := by
      intro kv hkv
      simp only [serviceClosed, List.mem_map] at hkv
      obtain ⟨kv0, _, hkv0⟩ := hkv
      rw [← hkv0]
    refine ⟨?_, hclosed, rfl, fun hco => by simp [serviceClosed, hco], ?_⟩
    · exact Close_of_closeLoop_none s _ hloop
    · have hloop2 := closeLoop_closed_fixpoint (serviceClosed s).processors hclosed
      exact Close_of_closeLoop_none (serviceClosed s) _ hloop2
  · intro hsplit hxs hc he
    have hloop := closeLoop_prefix_error xs ys k p e hxs hc he
    rw [← hsplit] at hloop
    exact Close_of_closeLoop_some s _ e hloop

/-- C4 amended witness: the clean-close branch at a concrete one-processor
service, and the short-circuit branch at the concrete two-processor service
whose first processor fails to close. -/
theorem close_first_error_behavior_witness :
    (svcGood.Close = .ok (serviceClosed svcGood)
        ∧ (∀ kv ∈ (serviceClosed svcGood).processors, kv.2.closed = true)
        ∧ (serviceClosed svcGood).closingOpen = false
        ∧ (svcGood.closingOpen = true → (serviceClosed svcGood).purgeRunning = false)
        ∧ (serviceClosed svcGood).Close = .ok (serviceClosed svcGood))
      ∧ svcTwo.Close = .error "close failed: boom"
          { svcTwo with processors := [(1, pBad), (2, pGood)] } := by
  constructor
  · exact (close_first_error_behavior svcGood [] [] 0 pBad "x").1 (by decide)
  · have h := (close_first_error_behavior svcTwo [] [(2, pGood)] 1 pBad
      "close failed: boom").2 rfl (by decide) (by decide) (by decide)
    simpa using h

/-! ### Purge-cycle lemmas and claims -/

/-- A processor whose destination is still a member, whose `LastModified`
read fails, or whose data is too young, is kept in the map unchanged. -/
theorem purgeStep_keeps (node : Nat → NodeResult) (now maxAge : Int) (k : Nat)
    (v : NodeProcessor)
    (h : node k ≠ .notFound ∨ v.lmErr ≠ none ∨ ¬(v.lastModified < now - maxAge)) :
    purgeStep node now maxAge k v = some v := by
  rcases hlm : v.lmErr with _ | e
  · simp only [purgeStep, NodeProcessor.LastModified, hlm]
    rcases hn : node k with _ | _ | e2
    · rfl
    · have hage : ¬(v.lastModified < now - maxAge) := by
        rcases h with h | h | h
        · exact absurd hn h
        · exact absurd hlm h
        · exact h
      rw [if_neg hage]
    · rfl
  · simp [purgeStep, NodeProcessor.LastModified, hlm]

/-- Closing a processor does not change its purge-error oracle. -/
theorem Close_purgeErr (v : NodeProcessor) : (v.Close).2.purgeErr = v.purgeErr := by
  rcases v with ⟨n, d, c, oe, ce, le, lm, pe, we⟩
  rcases c <;> rcases ce <;> rfl

/-- A processor for which any purge-path operation errors — the
`LastModified` read, the membership query, the close, or the purge — is kept
in the map. -/
theorem purgeStep_error_keeps (node : Nat → NodeResult) (now maxAge : Int) (k : Nat)
    (v : NodeProcessor)
    (herr : v.lmErr ≠ none ∨ (∃ e, node k = .nodeErr e)
        ∨ (v.Close).1 ≠ none ∨ v.purgeErr ≠ none) :
    ∃ v', purgeStep node now maxAge k v = some v' := by
  rcases hlm : v.lmErr with _ | e
  · rcases hn : node k with _ | _ | e2
    · exact ⟨v, by simp [purgeStep, NodeProcessor.LastModified, hlm, hn]⟩
    · by_cases hage : v.lastModified < now - maxAge
      · rcases hcl : v.Close with ⟨r, w⟩
        rcases r with _ | e3
        · rcases hpe : w.purgeErr with _ | e4
          · exfalso
            have hpe' : v.purgeErr = none := by
              have hq := Close_purgeErr v
              rw [hcl] at hq
              rw [← hq, hpe]
            rcases herr with h | ⟨e5, h⟩ | h | h
            · exact h hlm
            · rw [hn] at h
              exact NodeResult.noConfusion h
            · rw [hcl] at h
              exact h rfl
            · exact h hpe'
          · exact ⟨w, by
              simp [purgeStep, NodeProcessor.LastModified, hlm, hn, hage, hcl, hpe]⟩
        · exact ⟨w, by simp [purgeStep, NodeProcessor.LastModified, hlm, hn, hage, hcl]⟩
      · exact ⟨v, by simp [purgeStep, NodeProcessor.LastModified, hlm, hn, hage]⟩
    · exact ⟨v, by simp [purgeStep, NodeProcessor.LastModified, hlm, hn]⟩
  · exact ⟨v, by simp [purgeStep, NodeProcessor.LastModified, hlm]⟩

/-- C2: a purge cycle closes, purges and removes a processor only when both
its destination is reported departed (not-found, no error) and its last
modification time is strictly older than `now − maxAge`; a processor for
which either condition fails is left in the map untouched. -/
theorem purge_requires_departed_and_aged (s : Service) (node : Nat → NodeResult)
    (now : Int) (k : Nat) (v : NodeProcessor)
    (hmem : (k, v) ∈ s.processors) :
    ((∀ v', (k, v') ∉ (s.purgeCycle node now).processors) →
        node k = .notFound ∧ v.lmErr = none ∧ v.lastModified < now - s.cfg.MaxAge)
      ∧ ((node k ≠ .notFound ∨ v.lmErr ≠ none ∨ ¬(v.lastModified < now - s.cfg.MaxAge)) →
        (k, v) ∈ (s.purgeCycle node now).processors) := by
  have keep : (node k ≠ .notFound ∨ v.lmErr ≠ none ∨ ¬(v.lastModified < now - s.cfg.MaxAge)) →
      (k, v) ∈ (s.purgeCycle node now).processors := by
    intro h
    have hstep := purgeStep_keeps node now s.cfg.MaxAge k v h
    simp only [Service.purgeCycle]
    exact List.mem_filterMap.mpr ⟨(k, v), hmem, by simp [purgeEntry, hstep]⟩
  refine ⟨?_, keep⟩
  intro habs
  by_contra hnot
  have h : node k ≠ .notFound ∨ v.lmErr ≠ none ∨ ¬(v.lastModified < now - s.cfg.MaxAge) := by
    tauto
  exact habs v (keep h)

/-- C2 witness: a processor whose destination is still a member survives the
purge cycle untouched even though its data is old. -/
theorem purge_requires_departed_and_aged_witness :
    (2, pGood) ∈ (svcGood.purgeCycle (fun _ => .info) 100000).processors := by
  have h := purge_requires_departed_and_aged svcGood (fun _ => .info) 100000 2 pGood
    (by decide)
  exact h.2 (Or.inl (by decide))

/-- C6: a per-processor error during a purge cycle — a failing
`LastModified` read, a membership-directory error, a close failure, or a
purge failure — only keeps that processor in the map; the cycle is not
aborted and every other entry is processed exactly as it would be
otherwise. -/
theorem purge_error_skips_only_that_processor (s : Service) (node : Nat → NodeResult)
    (now : Int) (xs ys : List (Nat × NodeProcessor)) (k : Nat) (v : NodeProcessor)
    (hsplit : s.processors = xs ++ (k, v) :: ys)
    (herr : v.lmErr ≠ none ∨ (∃ e, node k = .nodeErr e)
        ∨ (v.Close).1 ≠ none ∨ v.purgeErr ≠ none) :
    ∃ v', purgeStep node now s.cfg.MaxAge k v = some v'
      ∧ (s.purgeCycle node now).processors
          = xs.filterMap (purgeEntry node now s.cfg.MaxAge)
            ++ (k, v') :: ys.filterMap (purgeEntry node now s.cfg.MaxAge) := by
  obtain ⟨v', hv'⟩ := purgeStep_error_keeps node now s.cfg.MaxAge k v herr
  refine ⟨v', hv', ?_⟩
  simp only [Service.purgeCycle, hsplit, List.filterMap_append, List.filterMap_cons]
  simp [purgeEntry, hv']

/-- An open processor for node 3 whose `LastModified` read fails. -/
def pStatErr : NodeProcessor :=
  { nodeID := 3, dir := "data/3", closed := false, openErr := none,
    closeErr := none, lmErr := some "stat failed", lastModified := 0,
    purgeErr := none, writeErr := none }

/-- A running service holding the benign processor 2 and the
broken-`LastModified` processor 3. -/
def svcStatErr : Service :=
  { cfg := cfgOn, procsInit := true, processors := [(3, pStatErr), (2, pGood)],
    closingOpen := true, purgeRunning := true,
    statMap := { writeShardReq := 0, writeShardReqPoints := 0 } }

/-- C6 witness: with both processors' destinations departed and all data
aged out, the processor whose `LastModified` read fails is kept while the
benign one is purged, and the cycle completes. -/
theorem purge_error_skips_only_that_processor_witness :
    (svcStatErr.purgeCycle (fun _ => .notFound) 100000).processors = [(3, pStatErr)] := by
  obtain ⟨v', h1, h2⟩ := purge_error_skips_only_that_processor svcStatErr
    (fun _ => .notFound) 100000 [] [(2, pGood)] 3 pStatErr rfl (Or.inl (by decide))
  have hv : v' = pStatErr := by
    have hconc : purgeStep (fun _ => .notFound) 100000 svcStatErr.cfg.MaxAge 3 pStatErr
        = some pStatErr := by decide
    rw [hconc] at h1
    exact (Option.some.inj h1).symm
  rw [h2, hv]
  decide

/-! ### Decimal rendering: round-trip lemmas and the path-layout claim -/

/-- The value of a little-endian list of decimal digits. -/
def digitsVal : List Nat → Nat
  | [] => 0
  | d :: L => d + 10 * digitsVal L

/-- With enough fuel, the digit expansion evaluates back to its input. -/
theorem decimalDigitsAux_val (fuel : Nat) : ∀ n : Nat, n ≤ fuel →
    digitsVal (decimalDigitsAux fuel n) = n := by
  induction fuel with
  | zero =>
    intro n hn
    have h0 : n = 0 := Nat.le_zero.mp hn
    subst h0
    rfl
  | succ fuel ih =>
    intro n hn
    by_cases h0 : n = 0
    · subst h0
      rfl
    · have hdiv : n / 10 ≤ fuel := by
        have : n / 10 < n := Nat.div_lt_self (Nat.pos_of_ne_zero h0) (by omega)
        omega
      simp only [decimalDigitsAux, if_neg h0, digitsVal, ih (n / 10) hdiv]
      omega

/-- Every digit the expansion produces is below 10. -/
theorem decimalDigitsAux_lt (fuel : Nat) : ∀ n d : Nat, d ∈ decimalDigitsAux fuel n → d < 10 := by
  induction fuel with
  | zero =>
    intro n d hd
    simp [decimalDigitsAux] at hd
  | succ fuel ih =>
    intro n d hd
    by_cases h0 : n = 0
    · subst h0
      simp [decimalDigitsAux] at hd
    · simp only [decimalDigitsAux, if_neg h0, List.mem_cons] at hd
      rcases hd with h | h
      · omega
      · exact ih (n / 10) d h

/-- A nonzero number has a nonempty digit expansion. -/
theorem decimalDigitsAux_ne_nil (fuel n : Nat) (h0 : n ≠ 0) (hf : 1 ≤ fuel) :
    decimalDigitsAux fuel n ≠ [] := by
  rcases fuel with _ | fuel
  · omega
  · simp [decimalDigitsAux, h0]

/-- The code point of a digit character. -/
theorem digitChar_toNat (d : Nat) (h : d < 10) : (digitChar d).toNat = 48 + d := by
  interval_cases d <;> decide

/-- Digit characters satisfy `Char.isDigit`. -/
theorem digitChar_isDigit (d : Nat) (h : d < 10) : (digitChar d).isDigit = true := by
  interval_cases d <;> decide

/-- Folding the parser's accumulator over the rendered characters recovers
the value of the digit list. -/
theorem foldl_digitChar (L : List Nat) (h : ∀ d ∈ L, d < 10) :
    (L.reverse.map digitChar).foldl (fun acc c => acc * 10 + (c.toNat - 48)) 0
      = digitsVal L := by
  induction L with
  | nil => rfl
  | cons d L ih =>
    have hL : ∀ x ∈ L, x < 10 := fun x hx => h x (List.mem_cons_of_mem _ hx)
    have hd : d < 10 := h d (List.mem_cons_self _ _)
    simp only [List.reverse_cons, List.map_append, List.map_cons, List.map_nil,
      List.foldl_append, List.foldl_cons, List.foldl_nil, ih hL, digitsVal]
    rw [digitChar_toNat d hd]
    omega

/-- The rendered characters are all digits. -/
theorem all_isDigit (L : List Nat) (h : ∀ d ∈ L, d < 10) :
    (L.reverse.map digitChar).all Char.isDigit = true := by
  rw [List.all_eq_true]
  intro c hc
  rw [List.mem_map] at hc
  obtain ⟨d, hd, rfl⟩ := hc
  exact digitChar_isDigit d (h d (List.mem_reverse.mp hd))

/-- Round trip: the plain decimal rendering of any 64-bit value parses back
to that value under the directory-scan parser. -/
theorem parseUint64_decimalRepr (n : Nat) (h : n < 2 ^ 64) :
    parseUint64 (decimalRepr n) = some n := by
  by_cases h0 : n = 0
  · subst h0
    decide
  · have hdata : (decimalRepr n).data = (decimalDigitsAux n n).reverse.map digitChar := by
      simp [decimalRepr, h0]
    have hlt : ∀ d ∈ decimalDigitsAux n n, d < 10 :=
      fun d hd => decimalDigitsAux_lt n n d hd
    have hne : decimalDigitsAux n n ≠ [] :=
      decimalDigitsAux_ne_nil n n h0 (by omega)
    have hne2 : ¬((decimalDigitsAux n n).reverse.map digitChar = []) := by
      simp [hne]
    have hfold : ((decimalDigitsAux n n).reverse.map digitChar).foldl
        (fun acc c => acc * 10 + (c.toNat - 48)) 0 = n := by
      rw [foldl_digitChar _ hlt, decimalDigitsAux_val n n le_rfl]
    rw [parseUint64, hdata, if_neg hne2, if_pos (all_isDigit _ hlt), hfold, if_pos h]

/-- C9 counterexample: the claim says the node path component is the
zero-padded decimal rendering of the ID.  The code renders with `%d`:
node 5 maps to `data/5` (one digit, no padding) and node 10 to `data/10`
(two digits), whereas a zero-padded rendering — here at width 2 — would be
`05`. -/
theorem pathforNode_not_zero_padded_counterexample :
    (NewService cfgOn).pathforNode 5 = "data/5"
      ∧ (NewService cfgOn).pathforNode 10 = "data/10"
      ∧ (decimalRepr 5).data.length = 1
      ∧ (decimalRepr 10).data.length = 2
      ∧ zeroPadded 2 5 = "05"
      ∧ decimalRepr 5 ≠ zeroPadded 2 5 := by
  decide

/-- C9 amended: the per-node directory is `<root>/<nodeID>` where the node
ID component is the plain, unpadded decimal rendering that `%d` produces;
that rendering parses back to the same node ID (so startup rediscovers the
directory), and `open()` ignores any child whose name does not parse as an
unsigned 64-bit integer. -/
theorem pathforNode_plain_decimal_roundtrip (s : Service) (n : Nat) (hn : n < 2 ^ 64)
    (name : String) (hname : parseUint64 name = none)
    (env : Env) (st : Service) (rest : List String) :
    s.pathforNode n = s.cfg.Dir ++ "/" ++ decimalRepr n
      ∧ parseUint64 (decimalRepr n) = some n
      ∧ openLoop env s.cfg.Dir st (name :: rest) = openLoop env s.cfg.Dir st rest := by
  refine ⟨rfl, parseUint64_decimalRepr n hn, ?_⟩
  simp [openLoop, hname]

/-- C9 amended witness: the plain-decimal path, the parse round trip and
the skip of a non-numeric child name at concrete inputs. -/
theorem pathforNode_plain_decimal_roundtrip_witness :
    (NewService cfgOn).pathforNode 123 = "data" ++ "/" ++ decimalRepr 123
      ∧ parseUint64 (decimalRepr 123) = some 123
      ∧ openLoop benignEnv "data" (NewService cfgOn) ("abc" :: [])
          = openLoop benignEnv "data" (NewService cfgOn) [] :=
  pathforNode_plain_decimal_roundtrip (NewService cfgOn) 123 (by norm_num)
    "abc" (by decide) benignEnv (NewService cfgOn) []

end HH
